import Mathlib

/-!
# netdumplings — verification of the dumpling codec, hub relay, kitchen
dispatch and eater filtering

Shallow embedding of the parts of the `netdumplings` package that the
claims address:

* `netdumplings/dumpling.py` — the `Dumpling` record, `Dumpling.from_json`
  and `Dumpling.to_json`;
* `netdumplings/_shared.py` — `validate_dumpling`;
* `netdumplings/dumplinghub.py` — `DumplingHub._grab_dumplings`,
  `DumplingHub._emit_dumplings`, `DumplingHub._announce_system_status`
  (state transitions on the hub's tables, queues and counters);
* `netdumplings/dumplingkitchen.py` — `DumplingKitchen._process_packet`,
  `DumplingKitchen._poke_chefs` (one poke round);
* `netdumplings/dumplingeater.py` — the receive loop of
  `DumplingEater._grab_dumplings`.

Modelling conventions:

* A parsed JSON document is a value of the inductive `JSON`.  JSON numbers
  are modelled as integers (no claim depends on fractional or
  floating-point behaviour; Python's `json` round-trips numbers exactly
  at the level of structure relevant here).
* The Python standard library's `json.loads` is external to the
  repository, so a wire frame is modelled post-parse as `Frame :=
  Option JSON`: `none` stands for bytes that are not valid JSON (where
  `json.loads` raises `JSONDecodeError`), `some j` for bytes parsing to
  the document `j`.  A frame is relayed as a value; "the unchanged frame"
  means the very same `Frame` value.
* Python exceptions relevant to the modelled code paths are the inductive
  `PyExc`; fallible code returns `Except PyExc _`.
* Python subscription `x['k']` is `subscript`: a `KeyError` on a dict
  without the key, a `TypeError` on any non-dict, the value otherwise.
* Python truthiness of JSON-shaped values is `truthy`.
-/

inductive JSON where
  | null
  | bool (b : Bool)
  | num (n : Int)
  | str (s : String)
  | arr (elems : List JSON)
  | obj (fields : List (String × JSON))

abbrev Frame := Option JSON

/-- Python exceptions arising in the modelled code paths. -/
inductive PyExc where
  | keyError (key : String)
  | typeError
  | attributeError
  | invalidDumpling
  | invalidDumplingPayload
  deriving DecidableEq, Repr

/-- Python `x['k']`: the value under key `k` of a dict, a `KeyError` when
the dict lacks the key, a `TypeError` when `x` is not a dict. -/
def subscript : JSON → String → Except PyExc JSON
  | .obj fields, k =>
    match fields.lookup k with
    | some v => .ok v
    | none => .error (.keyError k)
  | _, _ => .error .typeError

/-- Python truthiness of a JSON-shaped value (`if self.kitchen` etc.). -/
def truthy : JSON → Bool
  | .null => false
  | .bool b => b
  | .num n => n != 0
  | .str s => s != ""
  | .arr elems => !elems.isEmpty
  | .obj fields => !fields.isEmpty

/-- `jsonGet j k`: the value under `k` when `j` is a dict having it. -/
def jsonGet : JSON → String → Option JSON
  | .obj fields, k => fields.lookup k
  | _, _ => none

/-! ## The Dumpling record (`netdumplings/dumpling.py`)

`DumplingDriver` is the two-member enum.  The `kitchen` attribute of a
`Dumpling` holds either a `DumplingKitchen` object (of which only `.name`
is ever used, in `to_json`) or a plain Python value: `None` from the
constructor, or whatever JSON value `from_json` read from
`metadata.kitchen`.  Python `None` and JSON `null` are the same value, so
both are `KitchenVal.jsonVal JSON.null`. -/

inductive DumplingDriver where
  | packet
  | interval
  deriving DecidableEq, Repr

/-- The serialized spelling of a driver (Python `self.driver.name`). -/
def DumplingDriver.wireName : DumplingDriver → String
  | .packet => "packet"
  | .interval => "interval"

inductive KitchenVal where
  | kitchenObj (name : String)
  | jsonVal (j : JSON)

/-- The `chef` argument of `Dumpling.__init__`: either a `DumplingChef`
object (with a `name` and a `kitchen` that is a kitchen object or `None`),
or any plain value without `name`/`kitchen` attributes — a chef-name
string, or the JSON value `from_json` read from `metadata.chef`. -/
inductive ChefArg where
  | chefObj (name : String) (kitchen : Option String)
  | pyVal (j : JSON)

structure Dumpling where
  chef_name : JSON
  kitchen : KitchenVal
  driver : DumplingDriver
  creation_time : JSON
  payload : JSON

/-- `time.time() if creation_time is None else creation_time` from
`Dumpling.__init__` (`now` is the wall clock). -/
def orNow (creation_time : JSON) (now : Int) : JSON :=
  match creation_time with
  | .null => .num now
  | ct => ct

/-- `Dumpling.__init__`: a chef object contributes its `name` and
`kitchen`; any other chef value triggers the `AttributeError` branch and
becomes the `chef_name` itself, with `kitchen = None`. -/
def Dumpling.init (chef : ChefArg) (driver : DumplingDriver)
    (creation_time : JSON) (now : Int) (payload : JSON) : Dumpling where
  chef_name :=
    match chef with
    | .chefObj name _ => .str name
    | .pyVal j => j
  kitchen :=
    match chef with
    | .chefObj _ (some kitchenName) => .kitchenObj kitchenName
    | .chefObj _ none => .jsonVal .null
    | .pyVal _ => .jsonVal .null
  driver := driver
  creation_time := orNow creation_time now
  payload := payload

/-- `self.kitchen.name if self.kitchen else None` in `Dumpling.to_json`:
a kitchen object is truthy and has a `name`; a truthy plain value has no
`name` attribute, so the access raises `AttributeError`; a falsy value
serializes as `null`. -/
def KitchenVal.serialized : KitchenVal → Except PyExc JSON
  | .kitchenObj name => .ok (.str name)
  | .jsonVal j => if truthy j then .error .attributeError else .ok .null

/-- `Dumpling.to_json`.  With payloads modelled as `JSON` values,
`json.dumps` always succeeds, so the `InvalidDumplingPayload` branch is
unreachable; the only failure is the `AttributeError` from the kitchen
attribute access, which happens before `json.dumps` is reached. -/
def Dumpling.to_json (d : Dumpling) : Except PyExc JSON :=
  match d.kitchen.serialized with
  | .error e => .error e
  | .ok kitchenJson => .ok (.obj [
      ("metadata", .obj [
        ("chef", d.chef_name),
        ("kitchen", kitchenJson),
        ("creation_time", d.creation_time),
        ("driver", .str d.driver.wireName)]),
      ("payload", d.payload)])

/-- The `except KeyError: raise InvalidDumpling` wrapper around the
second `try` block of `Dumpling.from_json`: only `KeyError` is converted;
every other exception (notably `TypeError`) escapes unchanged. -/
def keyErrorToInvalid {α : Type} : Except PyExc α → Except PyExc α
  | .error (.keyError _) => .error .invalidDumpling
  | r => r

/-- `Dumpling.from_json`.  `frame = none` is input that is not valid JSON
(`json.loads` raises, caught, re-raised as `InvalidDumpling`).  The
access `dumpling_dict['metadata']` sits outside both `try` blocks, so its
`KeyError`/`TypeError` escapes uncaught.  Inside the second `try`, the
accesses happen in source order — `driver`, `chef`, `creation_time`,
`payload`, then (after construction) `kitchen` — and only `KeyError` is
converted to `InvalidDumpling`.  The constructed dumpling's `kitchen` is
then overwritten with the raw `metadata.kitchen` value.

Below, `decodeDriver` is lines 138–145 of `from_json`: read
`metadata['driver']` and map the two literals to the enum, raising
`InvalidDumpling` for anything else. -/
def decodeDriver (metadata : JSON) : Except PyExc DumplingDriver :=
  match subscript metadata "driver" with
  | .error e => .error e
  | .ok (.str s) =>
    if s = "packet" then .ok DumplingDriver.packet
    else if s = "interval" then .ok DumplingDriver.interval
    else .error .invalidDumpling
  | .ok _ => .error .invalidDumpling

/-- Lines 147–155 of `from_json`: the constructor call on the remaining
metadata accesses, then the overwrite of `kitchen` with the raw
`metadata['kitchen']` value. -/
def decodeRest (dumpling_dict metadata : JSON) (driver : DumplingDriver)
    (now : Int) : Except PyExc Dumpling := do
  let chef ← subscript metadata "chef"
  let creationTime ← subscript metadata "creation_time"
  let payload ← subscript dumpling_dict "payload"
  let d := Dumpling.init (.pyVal chef) driver creationTime now payload
  let kitchenVal ← subscript metadata "kitchen"
  pure { d with kitchen := .jsonVal kitchenVal }

def Dumpling.from_json (frame : Frame) (now : Int) : Except PyExc Dumpling :=
  match frame with
  | none => .error .invalidDumpling
  | some dumpling_dict =>
    match subscript dumpling_dict "metadata" with
    | .error e => .error e
    | .ok metadata =>
      keyErrorToInvalid (do
        let driver ← decodeDriver metadata
        decodeRest dumpling_dict metadata driver now)

/-! ## Hub-side validation (`netdumplings/_shared.py`) -/

/-- `validate_dumpling`: parse (a `JSONDecodeError` becomes
`InvalidDumpling`), then evaluate `dumpling['metadata']['chef']` with
both `KeyError` and `TypeError` converted to `InvalidDumpling`; on
success return the parsed value itself. -/
def validate_dumpling (dumpling_json : Frame) : Except PyExc JSON :=
  match dumpling_json with
  | none => .error .invalidDumpling
  | some dumpling =>
    match subscript dumpling "metadata" with
    | .error _ => .error .invalidDumpling
    | .ok metadata =>
      match subscript metadata "chef" with
      | .error _ => .error .invalidDumpling
      | .ok _ => .ok dumpling

/-- Spec-side shape check: the parsed document is a dict whose
`metadata` value is a dict containing a `chef` key. -/
def hasMetadataChef (j : JSON) : Bool :=
  (((jsonGet j "metadata").bind (fun m => jsonGet m "chef"))).isSome

/-! ## The hub's relay state machine (`netdumplings/dumplinghub.py`)

The hub runs single-threaded cooperative tasks over shared state: the
eater table (each record owning an unbounded FIFO queue of frames) and
the `_system_stats` counters.  Suspension points separate the steps, so
the per-frame body of `_grab_dumplings`, one successful `send` of
`_emit_dumplings`, one round of `_announce_system_status`, and the
connect/disconnect transitions are modelled as atomic events. -/

structure EaterRec where
  id : Nat
  queue : List Frame

structure HubState where
  eaters : List EaterRec
  dumplings_in : Nat
  dumplings_out : Nat

/-- Push a frame onto every eater queue (the fanout `for` loop). -/
def enqueueAll (frame : Frame) (eaters : List EaterRec) : List EaterRec :=
  eaters.map fun e => { e with queue := e.queue ++ [frame] }

/-- The per-frame body of `DumplingHub._grab_dumplings`: validate; on
failure log and `continue`; on success increment `dumplings_in` and put
the received frame, unchanged, on every connected eater's queue. -/
def grabOne (s : HubState) (frame : Frame) : HubState :=
  match validate_dumpling frame with
  | .error _ => s
  | .ok _ =>
    { s with
      dumplings_in := s.dumplings_in + 1
      eaters := enqueueAll frame s.eaters }

/-- One `queue.get` + `websocket.send` of `_emit_dumplings` for the
eater `eid`: pops the queue head when that eater exists and its queue is
nonempty; otherwise (`queue.get` would suspend, or the eater is gone)
nothing happens.  `none` means no frame was written. -/
def sendStep : List EaterRec → Nat → Option (List EaterRec)
  | [], _ => none
  | e :: rest, eid =>
    if e.id = eid then
      match e.queue with
      | [] => none
      | _ :: q => some ({ e with queue := q } :: rest)
    else (sendStep rest eid).map (e :: ·)

/-- The status dumpling built by `_announce_system_status`:
`Dumpling(chef='SystemStatusChef', driver=DumplingDriver.interval,
payload=...)`, then `to_json`. -/
def statusDumplingJson (payload : JSON) (now : Int) : Except PyExc JSON :=
  (Dumpling.init (.pyVal (.str "SystemStatusChef")) .interval .null now
    payload).to_json

inductive HubEvent where
  /-- `_grab_dumplings` receives one frame from some kitchen. -/
  | kitchenFrame (frame : Frame)
  /-- `_emit_dumplings` for eater `eid` pops its queue and the
  `websocket.send` succeeds (a failing send is an `eaterDisconnect`). -/
  | eaterSend (eid : Nat)
  /-- One round of `_announce_system_status` with the given payload. -/
  | statusAnnounce (payload : JSON) (now : Int)
  /-- `_emit_dumplings` accepts eater `eid`: fresh record, empty queue. -/
  | eaterConnect (eid : Nat)
  /-- Eater `eid`'s connection closes and its record is deleted. -/
  | eaterDisconnect (eid : Nat)

def hubStep (s : HubState) (ev : HubEvent) : HubState :=
  match ev with
  | .kitchenFrame frame => grabOne s frame
  | .eaterSend eid =>
    match sendStep s.eaters eid with
    | some eaters => { s with eaters := eaters,
                              dumplings_out := s.dumplings_out + 1 }
    | none => s
  | .statusAnnounce payload now =>
    match statusDumplingJson payload now with
    | .ok w => { s with eaters := enqueueAll (some w) s.eaters }
    | .error _ => s
  | .eaterConnect eid => { s with eaters := s.eaters ++ [⟨eid, []⟩] }
  | .eaterDisconnect eid =>
    { s with eaters := s.eaters.filter (fun e => e.id ≠ eid) }

def hubRun (s : HubState) (events : List HubEvent) : HubState :=
  events.foldl hubStep s

/-- Whether an event is an ingress-admitted dumpling (the only place
`dumplings_in` is touched). -/
def admitsEvent : HubEvent → Bool
  | .kitchenFrame frame => (validate_dumpling frame).isOk
  | _ => false

def admittedCount (events : List HubEvent) : Nat :=
  events.countP admitsEvent

/-- Whether, from state `s`, the event is a successful write of one
frame to an eater. -/
def sendsFrom (s : HubState) : HubEvent → Bool
  | .eaterSend eid => (sendStep s.eaters eid).isSome
  | _ => false

/-- Number of frames successfully written to eaters along a run. -/
def sentCount : HubState → List HubEvent → Nat
  | _, [] => 0
  | s, ev :: rest =>
    (if sendsFrom s ev then 1 else 0) + sentCount (hubStep s ev) rest

/-! ## Connection-record lifecycle (`_grab_dumplings` / `_emit_dumplings`)

Both handlers insert their record right after reading the identity
frame, then read the `kitchen_name` / `eater_name` out of it, then loop,
and delete the record only in the `except ConnectionClosed` handler.
`TaskEnd` is why the handler's loop stopped. -/

inductive TaskEnd where
  /-- `websockets.exceptions.ConnectionClosed` was raised. -/
  | connClosed
  /-- The task was cancelled (hub shutdown). -/
  | cancelled
  /-- Any other exception. -/
  | otherError
  deriving DecidableEq, Repr

/-- The table transitions of one `_grab_dumplings` task: `identity =
none` means the identity frame was not JSON (`json.loads` raises before
the record is inserted); a parsed identity without a `kitchen_name` key
raises `KeyError` on the line after the insert, so the task dies with
the record still in the table; otherwise the record is deleted exactly
when the loop ends in `ConnectionClosed`. -/
def grab_lifecycle (kitchens : List Nat) (wsId : Nat) (identity : Frame)
    (ended : TaskEnd) : List Nat :=
  match identity with
  | none => kitchens
  | some idj =>
    let inserted := kitchens ++ [wsId]
    match jsonGet idj "kitchen_name" with
    | none => inserted
    | some _ =>
      match ended with
      | .connClosed => inserted.filter (fun k => k ≠ wsId)
      | _ => inserted

/-- The table transitions of one `_emit_dumplings` task; identical
control flow with `eater_name` in place of `kitchen_name`. -/
def emit_lifecycle (eaters : List Nat) (wsId : Nat) (identity : Frame)
    (ended : TaskEnd) : List Nat :=
  match identity with
  | none => eaters
  | some idj =>
    let inserted := eaters ++ [wsId]
    match jsonGet idj "eater_name" with
    | none => inserted
    | some _ =>
      match ended with
      | .connClosed => inserted.filter (fun k => k ≠ wsId)
      | _ => inserted

/-! ## Kitchen dispatch (`netdumplings/dumplingkitchen.py`)

A registered chef exposes `name`, a `kitchen` attribute (the kitchen
object it was registered with, or `None`), and its two handlers.  A
handler either raises (`Except.error` with the message) or returns a
payload; returning Python `None` — JSON `null` — is the "no dumpling"
sentinel.  `Packet` stays abstract: the sniffer library is external. -/

structure Chef (Packet : Type) where
  name : String
  kitchen : Option String
  packet_handler : Packet → Except String JSON
  interval_handler : Nat → Except String JSON

/-- `DumplingKitchen._put_dumpling_on_queue`: build the dumpling from
the chef object, serialize it, append the serialized form to the queue.
A `to_json` failure would propagate (none is possible for a chef-built
dumpling, as proved below). -/
def put_dumpling_on_queue {Packet : Type} (chef : Chef Packet)
    (payload : JSON) (driver : DumplingDriver) (now : Int)
    (queue : List JSON) : Except PyExc (List JSON) :=
  match (Dumpling.init (.chefObj chef.name chef.kitchen) driver .null now
      payload).to_json with
  | .ok wire => .ok (queue ++ [wire])
  | .error e => .error e

/-- `DumplingKitchen._process_packet`: iterate the registered chefs in
order; a raising handler is logged (an entry `(chef name, message)`) and
the loop continues; a `None` payload emits nothing; any other payload is
wrapped and its encoded form appended to the outbound queue with
`driver=packet`. -/
def process_packet {Packet : Type} (chefs : List (Chef Packet))
    (packet : Packet) (now : Int) (queue : List JSON)
    (errors : List (String × String)) :
    Except PyExc (List JSON × List (String × String)) :=
  match chefs with
  | [] => .ok (queue, errors)
  | chef :: rest =>
    match chef.packet_handler packet with
    | .error msg =>
      process_packet rest packet now queue (errors ++ [(chef.name, msg)])
    | .ok .null => process_packet rest packet now queue errors
    | .ok payload =>
      match put_dumpling_on_queue chef payload .packet now queue with
      | .ok queue2 => process_packet rest packet now queue2 errors
      | .error e => .error e

/-- One round of the `for` loop in `DumplingKitchen._poke_chefs`: same
isolation semantics as `_process_packet`, with the interval handler and
`driver=interval`. -/
def poke_chefs_once {Packet : Type} (chefs : List (Chef Packet))
    (interval : Nat) (now : Int) (queue : List JSON)
    (errors : List (String × String)) :
    Except PyExc (List JSON × List (String × String)) :=
  match chefs with
  | [] => .ok (queue, errors)
  | chef :: rest =>
    match chef.interval_handler interval with
    | .error msg =>
      poke_chefs_once rest interval now queue (errors ++ [(chef.name, msg)])
    | .ok .null => poke_chefs_once rest interval now queue errors
    | .ok payload =>
      match put_dumpling_on_queue chef payload .interval now queue with
      | .ok queue2 => poke_chefs_once rest interval now queue2 errors
      | .error e => .error e

/-- The wire form of a dumpling a chef emits (spec side, for stating the
dispatch theorems). -/
def chefWire (name : String) (kitchen : Option String)
    (driver : DumplingDriver) (now : Int) (payload : JSON) : JSON :=
  .obj [
    ("metadata", .obj [
      ("chef", .str name),
      ("kitchen", match kitchen with | some k => .str k | none => .null),
      ("creation_time", .num now),
      ("driver", .str driver.wireName)]),
    ("payload", payload)]

/-- The dumplings one packet should put on the queue: for each chef, in
registration order, the encoded dumpling of its non-`None`, non-raising
result. -/
def packetDumplings {Packet : Type} (chefs : List (Chef Packet))
    (packet : Packet) (now : Int) : List JSON :=
  chefs.filterMap fun c =>
    match c.packet_handler packet with
    | .error _ => none
    | .ok .null => none
    | .ok payload => some (chefWire c.name c.kitchen .packet now payload)

/-- The error-log entries one packet should produce. -/
def packetErrors {Packet : Type} (chefs : List (Chef Packet))
    (packet : Packet) : List (String × String) :=
  chefs.filterMap fun c =>
    match c.packet_handler packet with
    | .error msg => some (c.name, msg)
    | .ok _ => none

/-- The dumplings one interval tick should put on the queue. -/
def intervalDumplings {Packet : Type} (chefs : List (Chef Packet))
    (interval : Nat) (now : Int) : List JSON :=
  chefs.filterMap fun c =>
    match c.interval_handler interval with
    | .error _ => none
    | .ok .null => none
    | .ok payload => some (chefWire c.name c.kitchen .interval now payload)

/-- The error-log entries one interval tick should produce. -/
def intervalErrors {Packet : Type} (chefs : List (Chef Packet))
    (interval : Nat) : List (String × String) :=
  chefs.filterMap fun c =>
    match c.interval_handler interval with
    | .error msg => some (c.name, msg)
    | .ok _ => none

/-! ## The eater's receive loop (`netdumplings/dumplingeater.py`)

`DumplingEater._grab_dumplings`: per received frame, validate (an
invalid frame is logged and skipped before the eat-limit check); read
`metadata.chef`; when the eater's chef list is `None` or contains that
chef name, increment the eaten counter and invoke `on_dumpling` with the
validated dict; then stop once `dumpling_count` is set and
`dumplings_eaten >= dumpling_count`. -/

/-- `self.chefs is None or dumpling_chef in self.chefs`: membership is
Python `==` against a list of name strings, so a non-string chef value
never matches. -/
def chefPasses (chefs : Option (List String)) (chefVal : JSON) : Bool :=
  match chefs with
  | none => true
  | some names =>
    match chefVal with
    | .str s => names.contains s
    | _ => false

/-- `dumpling_count is not None and dumplings_eaten >= dumpling_count`. -/
def limitReached : Option Nat → Nat → Bool
  | none, _ => false
  | some n, eaten => n ≤ eaten

/-- The receive loop, over the list of frames the websocket will
deliver.  Returns the final eaten counter and the list of dicts passed
to `on_dumpling`, in order.  (The `metadata.chef` lookup cannot fail on
a validated frame; the unreachable branch ends the loop like the
exception it would raise.) -/
def eat_loop (chefs : Option (List String)) (dumpling_count : Option Nat)
    (frames : List Frame) (eaten : Nat) (calls : List JSON) :
    Nat × List JSON :=
  match frames with
  | [] => (eaten, calls)
  | frame :: rest =>
    match validate_dumpling frame with
    | .error _ => eat_loop chefs dumpling_count rest eaten calls
    | .ok dumpling =>
      match (jsonGet dumpling "metadata").bind (fun m => jsonGet m "chef") with
      | none => (eaten, calls)
      | some chefVal =>
        if chefPasses chefs chefVal then
          if limitReached dumpling_count (eaten + 1) then
            (eaten + 1, calls ++ [dumpling])
          else
            eat_loop chefs dumpling_count rest (eaten + 1) (calls ++ [dumpling])
        else
          if limitReached dumpling_count eaten then (eaten, calls)
          else eat_loop chefs dumpling_count rest eaten calls

/-- The dumplings the eater should hand to `on_dumpling` absent an eat
limit: the validated frames whose chef passes the filter, in order. -/
def acceptedDumplings (chefs : Option (List String)) (frames : List Frame) :
    List JSON :=
  frames.filterMap fun frame =>
    match validate_dumpling frame with
    | .error _ => none
    | .ok dumpling =>
      match (jsonGet dumpling "metadata").bind (fun m => jsonGet m "chef") with
      | none => none
      | some chefVal =>
        if chefPasses chefs chefVal then some dumpling else none

/-! ## Decode outcome classification (for the `from_json` contract) -/

/-- How a call of `Dumpling.from_json` can end, seen from the caller. -/
inductive DecodeOutcome where
  | decoded
  | invalid
  | keyErr (key : String)
  | typeErr
  | otherExc
  deriving DecidableEq, Repr

def outcomeOf {α : Type} : Except PyExc α → DecodeOutcome
  | .ok _ => .decoded
  | .error .invalidDumpling => .invalid
  | .error (.keyError k) => .keyErr k
  | .error .typeError => .typeErr
  | .error _ => .otherExc

/-- `metadata.driver` is present and one of the two literals. -/
def goodDriver (metadata : List (String × JSON)) : Bool :=
  match metadata.lookup "driver" with
  | some (.str s) => s == "packet" || s == "interval"
  | _ => false

/-- The classification `Dumpling.from_json` actually realizes (the
amended decode contract): non-JSON is `InvalidDumpling`; a non-dict top
level or a non-dict `metadata` value raises `TypeError`; a dict without
`metadata` raises `KeyError`; with a dict `metadata` the call returns a
Dumpling exactly when `driver` is one of the two literals and `chef`,
`creation_time`, `kitchen` and a top-level `payload` are all present,
and raises `InvalidDumpling` otherwise. -/
def decodeClass (frame : Frame) : DecodeOutcome :=
  match frame with
  | none => .invalid
  | some (.obj fields) =>
    match fields.lookup "metadata" with
    | none => .keyErr "metadata"
    | some (.obj metadata) =>
      if goodDriver metadata && (metadata.lookup "chef").isSome
          && (metadata.lookup "creation_time").isSome
          && (fields.lookup "payload").isSome
          && (metadata.lookup "kitchen").isSome
      then .decoded
      else .invalid
    | some _ => .typeErr
  | some _ => .typeErr

/-- The kitchen name carried by a `kitchen` attribute value, when it has
one: the `name` of a kitchen object, or the value itself when it is the
kitchen-name string `from_json` read off the wire. -/
def KitchenVal.nameOf : KitchenVal → Option String
  | .kitchenObj name => some name
  | .jsonVal (.str name) => some name
  | .jsonVal _ => none

/-! ## Theorems -/

-- Sanity checks against the behaviour of the Python code on concrete
-- inputs.
example : subscript (.obj [("a", .num 1)]) "a" = .ok (.num 1) := rfl
example : subscript (.obj [("a", .num 1)]) "b" = .error (.keyError "b") := rfl
example : subscript (.arr []) "a" = .error .typeError := rfl
example :
    validate_dumpling (some (.obj [("metadata", .obj [("chef", .str "X")])]))
      = .ok (.obj [("metadata", .obj [("chef", .str "X")])]) := rfl
example : validate_dumpling (some (.obj [])) = .error .invalidDumpling := rfl
example : validate_dumpling (some (.num 3)) = .error .invalidDumpling := rfl
example : validate_dumpling none = .error .invalidDumpling := rfl
example :
    Dumpling.from_json (some (.obj [])) 0 = .error (.keyError "metadata") := rfl
example : Dumpling.from_json (some (.num 3)) 0 = .error .typeError := rfl
example :
    Dumpling.from_json
      (some (.obj [("metadata", .obj [("chef", .str "C")])])) 0
      = .error .invalidDumpling := rfl
example :
    Dumpling.from_json
      (some (.obj [("metadata", .obj [("driver", .str "other")])])) 0
      = .error .invalidDumpling := rfl
example :
    Dumpling.from_json (some (.obj [("metadata", .str "m")])) 0
      = .error .typeError := rfl

/-- Defaulting the creation time is idempotent: a constructed dumpling
never carries `null` as its creation time, so decoding keeps it. -/
theorem orNow_orNow (creationTime : JSON) (now now2 : Int) :
    orNow (orNow creationTime now) now2 = orNow creationTime now := by
  cases creationTime <;> rfl

/-- C1: for every Dumpling built by the constructor (with a
JSON-serializable payload, which every `JSON` payload is), `to_json`
succeeds and `from_json` of its output yields a dumpling equal on chef
name, kitchen name, creation time and driver, with the identical payload
structure. -/
theorem dumpling_encode_then_decode_roundtrip (chef : ChefArg)
    (driver : DumplingDriver) (creationTime : JSON) (now now2 : Int)
    (payload : JSON) :
    ∃ wire decoded,
      (Dumpling.init chef driver creationTime now payload).to_json
        = .ok wire ∧
      Dumpling.from_json (some wire) now2 = .ok decoded ∧
      decoded.chef_name
        = (Dumpling.init chef driver creationTime now payload).chef_name ∧
      decoded.kitchen.nameOf
        = (Dumpling.init chef driver creationTime now payload).kitchen.nameOf ∧
      decoded.creation_time
        = (Dumpling.init chef driver creationTime now payload).creation_time ∧
      decoded.driver
        = (Dumpling.init chef driver creationTime now payload).driver ∧
      decoded.payload
        = (Dumpling.init chef driver creationTime now payload).payload := by
  cases chef with
  | chefObj name kitchen =>
    cases kitchen with
    | some kitchenName =>
      cases driver <;>
        exact ⟨_, _, rfl, rfl, rfl, rfl,
          orNow_orNow creationTime now now2, rfl, rfl⟩
    | none =>
      cases driver <;>
        exact ⟨_, _, rfl, rfl, rfl, rfl,
          orNow_orNow creationTime now now2, rfl, rfl⟩
  | pyVal j =>
    cases driver <;>
      exact ⟨_, _, rfl, rfl, rfl, rfl,
        orNow_orNow creationTime now now2, rfl, rfl⟩

/-- C2: the code bug.  Decoding a well-formed wire frame whose
`metadata.kitchen` is a non-null kitchen-name string succeeds, but
re-encoding the decoded dumpling evaluates `self.kitchen.name` on that
string and raises `AttributeError` instead of producing a frame. -/
theorem decode_then_encode_raises_attribute_error :
    (Dumpling.from_json (some (.obj [
        ("metadata", .obj [
          ("chef", .str "C"),
          ("kitchen", .str "K"),
          ("creation_time", .num 1),
          ("driver", .str "packet")]),
        ("payload", .null)])) 0).map Dumpling.to_json
      = .ok (.error .attributeError) := rfl

/-- C3 counterexample: on valid JSON whose top level lacks the
`metadata` key entirely, `from_json` raises a bare `KeyError` — not
`InvalidDumpling` as the claim states. -/
theorem from_json_missing_metadata_raises_key_error :
    Dumpling.from_json (some (.obj [("payload", .null)])) 0
      = .error (.keyError "metadata") ∧
    PyExc.keyError "metadata" ≠ PyExc.invalidDumpling :=
  ⟨rfl, by decide⟩

/-- Outcome of the decode chain after a driver was selected: it decodes
exactly when `chef`, `creation_time`, a top-level `payload` and
`kitchen` are all present, and raises `InvalidDumpling` otherwise. -/
theorem decodeRest_outcome (fields metadata : List (String × JSON))
    (driver : DumplingDriver) (now : Int) :
    outcomeOf (keyErrorToInvalid
        (decodeRest (.obj fields) (.obj metadata) driver now))
      = if (metadata.lookup "chef").isSome
          && (metadata.lookup "creation_time").isSome
          && (fields.lookup "payload").isSome
          && (metadata.lookup "kitchen").isSome
        then .decoded else .invalid := by
  cases hc : metadata.lookup "chef" with
  | none =>
    simp [decodeRest, subscript, hc, keyErrorToInvalid, outcomeOf,
      Except.bind, bind]
  | some chef =>
    cases hct : metadata.lookup "creation_time" with
    | none =>
      simp [decodeRest, subscript, hc, hct, keyErrorToInvalid, outcomeOf,
        Except.bind, bind]
    | some ct =>
      cases hp : fields.lookup "payload" with
      | none =>
        simp [decodeRest, subscript, hc, hct, hp, keyErrorToInvalid,
          outcomeOf, Except.bind, bind]
      | some payload =>
        cases hk : metadata.lookup "kitchen" with
        | none =>
          simp [decodeRest, subscript, hc, hct, hp, hk, keyErrorToInvalid,
            outcomeOf, Except.bind, bind]
        | some kitchen =>
          simp [decodeRest, subscript, hc, hct, hp, hk, keyErrorToInvalid,
            outcomeOf, Except.bind, bind, pure, Except.pure]

/-- C3 amended: the full decode contract `from_json` realizes.
`InvalidDumpling` (and nothing else) is raised when the input is not
valid JSON, or when the top level and `metadata` are both dicts but
`driver` is absent or outside the enum, or `chef`, `creation_time`,
`kitchen` or a top-level `payload` is missing; a dict top level without
`metadata` raises `KeyError`; a non-dict top level or non-dict
`metadata` raises `TypeError`; in all remaining cases a Dumpling is
returned. -/
theorem from_json_outcome_classification (frame : Frame) (now : Int) :
    outcomeOf (Dumpling.from_json frame now) = decodeClass frame := by
  cases frame with
  | none => rfl
  | some j =>
    cases j with
    | null => rfl
    | bool b => rfl
    | num n => rfl
    | str s => rfl
    | arr elems => rfl
    | obj fields =>
      show outcomeOf (Dumpling.from_json (some (.obj fields)) now)
        = decodeClass (some (.obj fields))
      cases hm : fields.lookup "metadata" with
      | none =>
        simp [Dumpling.from_json, decodeClass, subscript, hm, outcomeOf]
      | some m =>
        cases m with
        | obj metadata =>
          cases hd : metadata.lookup "driver" with
          | none =>
            simp [Dumpling.from_json, decodeClass, subscript, hm,
              decodeDriver, hd, keyErrorToInvalid, outcomeOf, Except.bind,
              bind, goodDriver]
          | some dv =>
            cases dv with
            | str s =>
              by_cases hs : s = "packet"
              · subst hs
                have htail := decodeRest_outcome fields metadata
                  DumplingDriver.packet now
                simp [Dumpling.from_json, decodeClass, subscript, hm,
                  decodeDriver, hd, Except.bind, bind, goodDriver, htail]
                rw [hd]
                rfl
              · by_cases hi : s = "interval"
                · subst hi
                  have htail := decodeRest_outcome fields metadata
                    DumplingDriver.interval now
                  simp [Dumpling.from_json, decodeClass, subscript, hm,
                    decodeDriver, hd, Except.bind, bind, goodDriver, hs,
                    htail]
                  rw [hd]
                  rfl
                · simp [Dumpling.from_json, decodeClass, subscript, hm,
                    decodeDriver, hd, Except.bind, bind, keyErrorToInvalid,
                    goodDriver, hs, hi, outcomeOf]
            | null =>
              simp [Dumpling.from_json, decodeClass, subscript, hm,
                decodeDriver, hd, Except.bind, bind, keyErrorToInvalid,
                goodDriver, outcomeOf]
            | bool b =>
              simp [Dumpling.from_json, decodeClass, subscript, hm,
                decodeDriver, hd, Except.bind, bind, keyErrorToInvalid,
                goodDriver, outcomeOf]
            | num n =>
              simp [Dumpling.from_json, decodeClass, subscript, hm,
                decodeDriver, hd, Except.bind, bind, keyErrorToInvalid,
                goodDriver, outcomeOf]
            | arr elems =>
              simp [Dumpling.from_json, decodeClass, subscript, hm,
                decodeDriver, hd, Except.bind, bind, keyErrorToInvalid,
                goodDriver, outcomeOf]
            | obj fs =>
              simp [Dumpling.from_json, decodeClass, subscript, hm,
                decodeDriver, hd, Except.bind, bind, keyErrorToInvalid,
                goodDriver, outcomeOf]
        | null =>
          simp [Dumpling.from_json, decodeClass, subscript, hm, decodeDriver,
            Except.bind, bind, keyErrorToInvalid, outcomeOf]
        | bool b =>
          simp [Dumpling.from_json, decodeClass, subscript, hm, decodeDriver,
            Except.bind, bind, keyErrorToInvalid, outcomeOf]
        | num n =>
          simp [Dumpling.from_json, decodeClass, subscript, hm, decodeDriver,
            Except.bind, bind, keyErrorToInvalid, outcomeOf]
        | str s =>
          simp [Dumpling.from_json, decodeClass, subscript, hm, decodeDriver,
            Except.bind, bind, keyErrorToInvalid, outcomeOf]
        | arr elems =>
          simp [Dumpling.from_json, decodeClass, subscript, hm, decodeDriver,
            Except.bind, bind, keyErrorToInvalid, outcomeOf]

/-- C4 counterexample: a frame with `metadata.chef` but no top-level
`payload` key is admitted by the hub's `validate_dumpling`, so admission
does not guarantee a `payload` key. -/
theorem validate_admits_frame_without_payload :
    validate_dumpling (some (.obj [("metadata", .obj [("chef", .str "X")])]))
      = .ok (.obj [("metadata", .obj [("chef", .str "X")])]) ∧
    jsonGet (.obj [("metadata", .obj [("chef", .str "X")])]) "payload"
      = none :=
  ⟨rfl, rfl⟩

/-- C4 amended: a frame is admitted by the hub's `validate_dumpling`
exactly when it is valid JSON whose top level is a dict with a dict
`metadata` value containing a `chef` key — the top-level `payload` key
is not required; every rejected frame is not valid JSON or lacks the
`metadata.chef` path.  An admitted frame is returned as parsed. -/
theorem validate_admits_iff_metadata_chef (frame : Frame) :
    ((validate_dumpling frame).isOk = true
      ↔ ∃ j, frame = some j ∧ hasMetadataChef j = true) ∧
    (∀ j, validate_dumpling frame = .ok j → frame = some j) := by
  cases frame with
  | none =>
    constructor
    · constructor
      · intro h
        simp [validate_dumpling, Except.isOk, Except.toBool] at h
      · rintro ⟨j, hj, -⟩
        exact absurd hj (by simp)
    · intro j h
      simp [validate_dumpling] at h
  | some j =>
    constructor
    · constructor
      · intro h
        refine ⟨j, rfl, ?_⟩
        cases j with
        | obj fields =>
          cases hm : fields.lookup "metadata" with
          | none =>
            simp [validate_dumpling, subscript, hm, Except.isOk,
              Except.toBool] at h
          | some m =>
            cases m with
            | obj metadata =>
              cases hc : metadata.lookup "chef" with
              | none =>
                simp [validate_dumpling, subscript, hm, hc, Except.isOk,
                  Except.toBool] at h
              | some c =>
                simp [hasMetadataChef, jsonGet, hm, hc]
            | null =>
              simp [validate_dumpling, subscript, hm, Except.isOk,
                Except.toBool] at h
            | bool b =>
              simp [validate_dumpling, subscript, hm, Except.isOk,
                Except.toBool] at h
            | num n =>
              simp [validate_dumpling, subscript, hm, Except.isOk,
                Except.toBool] at h
            | str s =>
              simp [validate_dumpling, subscript, hm, Except.isOk,
                Except.toBool] at h
            | arr elems =>
              simp [validate_dumpling, subscript, hm, Except.isOk,
                Except.toBool] at h
        | null => simp [validate_dumpling, subscript, Except.isOk,
            Except.toBool] at h
        | bool b => simp [validate_dumpling, subscript, Except.isOk,
            Except.toBool] at h
        | num n => simp [validate_dumpling, subscript, Except.isOk,
            Except.toBool] at h
        | str s => simp [validate_dumpling, subscript, Except.isOk,
            Except.toBool] at h
        | arr elems => simp [validate_dumpling, subscript, Except.isOk,
            Except.toBool] at h
      · rintro ⟨j', hj', hchef⟩
        cases Option.some.inj hj'
        cases j with
        | obj fields =>
          cases hm : fields.lookup "metadata" with
          | none => simp [hasMetadataChef, jsonGet, hm] at hchef
          | some m =>
            cases m with
            | obj metadata =>
              cases hc : metadata.lookup "chef" with
              | none => simp [hasMetadataChef, jsonGet, hm, hc] at hchef
              | some c =>
                simp [validate_dumpling, subscript, hm, hc, Except.isOk,
                  Except.toBool]
            | null => simp [hasMetadataChef, jsonGet, hm] at hchef
            | bool b => simp [hasMetadataChef, jsonGet, hm] at hchef
            | num n => simp [hasMetadataChef, jsonGet, hm] at hchef
            | str s => simp [hasMetadataChef, jsonGet, hm] at hchef
            | arr elems => simp [hasMetadataChef, jsonGet, hm] at hchef
        | null => simp [hasMetadataChef, jsonGet] at hchef
        | bool b => simp [hasMetadataChef, jsonGet] at hchef
        | num n => simp [hasMetadataChef, jsonGet] at hchef
        | str s => simp [hasMetadataChef, jsonGet] at hchef
        | arr elems => simp [hasMetadataChef, jsonGet] at hchef
    · intro j' h
      cases hm : subscript j "metadata" with
      | error e => simp [validate_dumpling, hm] at h
      | ok m =>
        cases hc : subscript m "chef" with
        | error e => simp [validate_dumpling, hm, hc] at h
        | ok c =>
          simp only [validate_dumpling, hm, hc] at h
          exact congrArg some (Except.ok.inj h)

/-- C10: on every input, `validate_dumpling` either raises
`InvalidDumpling` or returns the parsed value itself — no other
exception escapes; in particular every non-dict top level (null,
boolean, number, string, array) is converted to `InvalidDumpling` via
the caught `TypeError`. -/
theorem validate_total_or_invalid (frame : Frame) (b : Bool) (n : Int)
    (s : String) (elems : List JSON) :
    (validate_dumpling frame = .error .invalidDumpling
      ∨ ∃ j, frame = some j ∧ validate_dumpling frame = .ok j) ∧
    validate_dumpling (some .null) = .error .invalidDumpling ∧
    validate_dumpling (some (.bool b)) = .error .invalidDumpling ∧
    validate_dumpling (some (.num n)) = .error .invalidDumpling ∧
    validate_dumpling (some (.str s)) = .error .invalidDumpling ∧
    validate_dumpling (some (.arr elems)) = .error .invalidDumpling := by
  refine ⟨?_, rfl, rfl, rfl, rfl, rfl⟩
  cases frame with
  | none => exact Or.inl rfl
  | some j =>
    cases hm : subscript j "metadata" with
    | error e => exact Or.inl (by simp [validate_dumpling, hm])
    | ok m =>
      cases hc : subscript m "chef" with
      | error e => exact Or.inl (by simp [validate_dumpling, hm, hc])
      | ok c => exact Or.inr ⟨j, rfl, by simp [validate_dumpling, hm, hc]⟩

/-- C5: the per-frame ingress body.  A frame failing validation changes
nothing (it is enqueued nowhere); an admitted frame is appended,
unchanged, to the queue of every eater present in the table at push
time; no eater record appears that was not already present (in
particular no queue of a previously removed eater is touched). -/
theorem hub_ingress_fanout (s : HubState) (frame : Frame) :
    ((validate_dumpling frame).isOk = false → grabOne s frame = s) ∧
    ((validate_dumpling frame).isOk = true →
      (grabOne s frame).dumplings_in = s.dumplings_in + 1 ∧
      (grabOne s frame).eaters
        = s.eaters.map (fun e => { e with queue := e.queue ++ [frame] })) ∧
    (∀ e, e ∈ s.eaters → (validate_dumpling frame).isOk = true →
      { e with queue := e.queue ++ [frame] } ∈ (grabOne s frame).eaters) ∧
    (∀ e, e ∈ (grabOne s frame).eaters → e.id ∈ s.eaters.map EaterRec.id) := by
  cases hv : validate_dumpling frame with
  | error err =>
    refine ⟨fun _ => by simp [grabOne, hv], ?_, ?_, ?_⟩
    · intro h
      simp [Except.isOk, Except.toBool, hv] at h
    · intro e he h
      simp [Except.isOk, Except.toBool, hv] at h
    · intro e he
      rw [grabOne, hv] at he
      exact List.mem_map_of_mem EaterRec.id he
  | ok j =>
    refine ⟨?_, fun _ => ⟨by simp [grabOne, hv], by
      simp [grabOne, hv, enqueueAll]⟩, ?_, ?_⟩
    · intro h
      simp [Except.isOk, Except.toBool, hv] at h
    · intro e he _
      rw [grabOne, hv]
      exact List.mem_map_of_mem (fun e => { e with queue := e.queue ++ [frame] }) he
    · intro e he
      rw [grabOne, hv] at he
      obtain ⟨a, ha, rfl⟩ := List.mem_map.mp he
      exact List.mem_map.mpr ⟨a, ha, rfl⟩

/-- `dumplings_in` changes only on an admitted ingress frame. -/
theorem hubStep_dumplings_in (s : HubState) (ev : HubEvent) :
    (hubStep s ev).dumplings_in
      = s.dumplings_in + (if admitsEvent ev then 1 else 0) := by
  cases ev with
  | kitchenFrame frame =>
    cases hv : validate_dumpling frame with
    | error err =>
      simp [hubStep, grabOne, hv, admitsEvent, Except.isOk, Except.toBool]
    | ok j =>
      simp [hubStep, grabOne, hv, admitsEvent, Except.isOk, Except.toBool]
  | eaterSend eid =>
    cases hs : sendStep s.eaters eid with
    | none => simp [hubStep, hs, admitsEvent]
    | some eaters => simp [hubStep, hs, admitsEvent]
  | statusAnnounce payload now =>
    cases hw : statusDumplingJson payload now with
    | error e => simp [hubStep, hw, admitsEvent]
    | ok w => simp [hubStep, hw, admitsEvent]
  | eaterConnect eid => simp [hubStep, admitsEvent]
  | eaterDisconnect eid => simp [hubStep, admitsEvent]

/-- `dumplings_out` changes only on a successful write to an eater. -/
theorem hubStep_dumplings_out (s : HubState) (ev : HubEvent) :
    (hubStep s ev).dumplings_out
      = s.dumplings_out + (if sendsFrom s ev then 1 else 0) := by
  cases ev with
  | kitchenFrame frame =>
    cases hv : validate_dumpling frame with
    | error err => simp [hubStep, grabOne, hv, sendsFrom]
    | ok j => simp [hubStep, grabOne, hv, sendsFrom]
  | eaterSend eid =>
    cases hs : sendStep s.eaters eid with
    | none => simp [hubStep, hs, sendsFrom]
    | some eaters => simp [hubStep, hs, sendsFrom]
  | statusAnnounce payload now =>
    cases hw : statusDumplingJson payload now with
    | error e => simp [hubStep, hw, sendsFrom]
    | ok w => simp [hubStep, hw, sendsFrom]
  | eaterConnect eid => simp [hubStep, sendsFrom]
  | eaterDisconnect eid => simp [hubStep, sendsFrom]

/-- C6: over any event sequence, `dumplings_in` grows by exactly the
number of ingress-admitted frames (so it is monotonically
non-decreasing), and `dumplings_out` grows by exactly the number of
frames successfully written to eaters.  Status announcements are not
ingress events, so they never contribute to `dumplings_in`; their
frames contribute to `dumplings_out` only via later successful sends. -/
theorem hub_counters (s : HubState) (events : List HubEvent) :
    (hubRun s events).dumplings_in = s.dumplings_in + admittedCount events ∧
    (hubRun s events).dumplings_out = s.dumplings_out + sentCount s events ∧
    s.dumplings_in ≤ (hubRun s events).dumplings_in ∧
    s.dumplings_out ≤ (hubRun s events).dumplings_out := by
  induction events generalizing s with
  | nil =>
    simp [hubRun, admittedCount, sentCount]
  | cons ev rest ih =>
    obtain ⟨ihIn, ihOut, -, -⟩ := ih (hubStep s ev)
    have hin := hubStep_dumplings_in s ev
    have hout := hubStep_dumplings_out s ev
    have hrun : hubRun s (ev :: rest) = hubRun (hubStep s ev) rest := rfl
    have hadm : admittedCount (ev :: rest)
        = (if admitsEvent ev then 1 else 0) + admittedCount rest := by
      simp [admittedCount, List.countP_cons]
      omega
    have hsent : sentCount s (ev :: rest)
        = (if sendsFrom s ev then 1 else 0) + sentCount (hubStep s ev) rest :=
      rfl
    refine ⟨?_, ?_, ?_, ?_⟩ <;> rw [hrun] <;> omega

/-- For a chef-built dumpling `to_json` always succeeds (the kitchen
attribute is a kitchen object or `None`), so `_put_dumpling_on_queue`
appends exactly the wire form. -/
theorem put_dumpling_on_queue_eq {Packet : Type} (chef : Chef Packet)
    (payload : JSON) (driver : DumplingDriver) (now : Int)
    (queue : List JSON) :
    put_dumpling_on_queue chef payload driver now queue
      = .ok (queue ++ [chefWire chef.name chef.kitchen driver now payload]) := by
  obtain ⟨name, kitchen, ph, ih⟩ := chef
  cases kitchen <;> rfl

/-- `_process_packet` never raises and appends exactly the dumplings and
error-log entries of the chefs in registration order. -/
theorem process_packet_eq {Packet : Type} (chefs : List (Chef Packet))
    (packet : Packet) (now : Int) (queue : List JSON)
    (errors : List (String × String)) :
    process_packet chefs packet now queue errors
      = .ok (queue ++ packetDumplings chefs packet now,
             errors ++ packetErrors chefs packet) := by
  induction chefs generalizing queue errors with
  | nil => simp [process_packet, packetDumplings, packetErrors]
  | cons chef rest ih =>
    cases hh : chef.packet_handler packet with
    | error msg =>
      simp [process_packet, hh, packetDumplings, packetErrors,
        List.filterMap_cons, ih]
    | ok payload =>
      cases payload <;>
        simp [process_packet, hh, packetDumplings, packetErrors,
          List.filterMap_cons, put_dumpling_on_queue_eq, ih]

/-- One round of `_poke_chefs` never raises and appends exactly the
dumplings and error-log entries of the chefs in registration order. -/
theorem poke_chefs_once_eq {Packet : Type} (chefs : List (Chef Packet))
    (interval : Nat) (now : Int) (queue : List JSON)
    (errors : List (String × String)) :
    poke_chefs_once chefs interval now queue errors
      = .ok (queue ++ intervalDumplings chefs interval now,
             errors ++ intervalErrors chefs interval) := by
  induction chefs generalizing queue errors with
  | nil => simp [poke_chefs_once, intervalDumplings, intervalErrors]
  | cons chef rest ih =>
    cases hh : chef.interval_handler interval with
    | error msg =>
      simp [poke_chefs_once, hh, intervalDumplings, intervalErrors,
        List.filterMap_cons, ih]
    | ok payload =>
      cases payload <;>
        simp [poke_chefs_once, hh, intervalDumplings, intervalErrors,
          List.filterMap_cons, put_dumpling_on_queue_eq, ih]

/-- C7: for every captured packet and every interval tick, the kitchen
dispatch runs every registered chef in registration order; a raising
handler contributes one error-log entry and nothing else — later chefs
still run; every non-`None` payload is wrapped in a dumpling with the
path's driver and its encoded form appended to the outbound queue, and a
`None` payload emits nothing.  The whole dispatch never raises. -/
theorem kitchen_dispatch_characterization (Packet : Type)
    (chefs : List (Chef Packet)) (packet : Packet) (interval : Nat)
    (now : Int) (queue : List JSON) (errors : List (String × String)) :
    process_packet chefs packet now queue errors
      = .ok (queue ++ packetDumplings chefs packet now,
             errors ++ packetErrors chefs packet) ∧
    poke_chefs_once chefs interval now queue errors
      = .ok (queue ++ intervalDumplings chefs interval now,
             errors ++ intervalErrors chefs interval) ∧
    packetDumplings chefs packet now
      = chefs.filterMap (fun c =>
          match c.packet_handler packet with
          | .error _ => none
          | .ok .null => none
          | .ok payload =>
            some (chefWire c.name c.kitchen .packet now payload)) ∧
    intervalDumplings chefs interval now
      = chefs.filterMap (fun c =>
          match c.interval_handler interval with
          | .error _ => none
          | .ok .null => none
          | .ok payload =>
            some (chefWire c.name c.kitchen .interval now payload)) :=
  ⟨process_packet_eq chefs packet now queue errors,
   poke_chefs_once_eq chefs interval now queue errors, rfl, rfl⟩

/-- C8 counterexample: a producer handler whose task stops because it
was cancelled (with a well-formed identity frame) leaves its record in
the producer table — removal is not unconditional on task stop. -/
theorem grab_record_survives_cancellation :
    grab_lifecycle [] 7 (some (.obj [("kitchen_name", .str "K")]))
      TaskEnd.cancelled = [7] ∧
    [7] ≠ ([] : List Nat) :=
  ⟨rfl, by decide⟩

/-- C8 amended: the hub removes a producer or consumer record exactly
when the handling task's loop ends with `ConnectionClosed`; a task that
stops for any other reason — cancellation, or the uncaught
`KeyError`/`TypeError` from an identity frame lacking
`kitchen_name`/`eater_name` — leaves the record in the table (a
non-JSON identity frame dies before the record is inserted). -/
theorem lifecycle_removal_characterization (table : List Nat) (wsId : Nat)
    (idj : JSON) (ended : TaskEnd) :
    grab_lifecycle table wsId none ended = table ∧
    emit_lifecycle table wsId none ended = table ∧
    grab_lifecycle table wsId (some idj) ended
      = (if (jsonGet idj "kitchen_name").isSome ∧ ended = .connClosed
         then (table ++ [wsId]).filter (fun k => k ≠ wsId)
         else table ++ [wsId]) ∧
    emit_lifecycle table wsId (some idj) ended
      = (if (jsonGet idj "eater_name").isSome ∧ ended = .connClosed
         then (table ++ [wsId]).filter (fun k => k ≠ wsId)
         else table ++ [wsId]) := by
  refine ⟨rfl, rfl, ?_, ?_⟩
  · cases hk : jsonGet idj "kitchen_name" with
    | none => cases ended <;> simp [grab_lifecycle, hk]
    | some v => cases ended <;> simp [grab_lifecycle, hk]
  · cases hk : jsonGet idj "eater_name" with
    | none => cases ended <;> simp [emit_lifecycle, hk]
    | some v => cases ended <;> simp [emit_lifecycle, hk]

/-- A frame admitted by `validate_dumpling` always yields a chef value
along the `metadata.chef` path of the returned dict. -/
theorem validate_ok_chef_some (frame : Frame) (j : JSON)
    (h : validate_dumpling frame = .ok j) :
    ∃ c, (jsonGet j "metadata").bind (fun m => jsonGet m "chef") = some c := by
  cases frame with
  | none => simp [validate_dumpling] at h
  | some j0 =>
    cases j0 with
    | obj fields =>
      cases hm : fields.lookup "metadata" with
      | none => simp [validate_dumpling, subscript, hm] at h
      | some m =>
        cases m with
        | obj metadata =>
          cases hc : metadata.lookup "chef" with
          | none => simp [validate_dumpling, subscript, hm, hc] at h
          | some c =>
            simp only [validate_dumpling, subscript, hm, hc] at h
            cases Except.ok.inj h
            exact ⟨c, by simp [jsonGet, hm, hc]⟩
        | null => simp [validate_dumpling, subscript, hm] at h
        | bool b => simp [validate_dumpling, subscript, hm] at h
        | num n => simp [validate_dumpling, subscript, hm] at h
        | str s => simp [validate_dumpling, subscript, hm] at h
        | arr elems => simp [validate_dumpling, subscript, hm] at h
    | null => simp [validate_dumpling, subscript] at h
    | bool b => simp [validate_dumpling, subscript] at h
    | num n => simp [validate_dumpling, subscript] at h
    | str s => simp [validate_dumpling, subscript] at h
    | arr elems => simp [validate_dumpling, subscript] at h

/-- Without an eat limit the receive loop calls `on_dumpling` on exactly
the validated frames whose chef passes the filter, in order, and the
eaten counter advances by exactly that many. -/
theorem eat_loop_no_limit (chefs : Option (List String))
    (frames : List Frame) (eaten : Nat) (calls : List JSON) :
    eat_loop chefs none frames eaten calls
      = (eaten + (acceptedDumplings chefs frames).length,
         calls ++ acceptedDumplings chefs frames) := by
  induction frames generalizing eaten calls with
  | nil => simp [eat_loop, acceptedDumplings]
  | cons frame rest ih =>
    cases hv : validate_dumpling frame with
    | error e =>
      simp [eat_loop, hv, acceptedDumplings, List.filterMap_cons, ih]
    | ok dumpling =>
      obtain ⟨c, hc⟩ := validate_ok_chef_some frame dumpling hv
      cases hp : chefPasses chefs c with
      | false =>
        simp [eat_loop, hv, hc, hp, limitReached, acceptedDumplings,
          List.filterMap_cons, ih]
      | true =>
        simp [eat_loop, hv, hc, hp, limitReached, acceptedDumplings,
          List.filterMap_cons, ih]
        omega

/-- With an eat limit the calls made are a prefix of the accepted
dumplings and the counter advances by exactly the number of calls:
filtered-out dumplings never reach `on_dumpling` and never count toward
the limit. -/
theorem eat_loop_with_limit_taken (chefs : Option (List String))
    (limit : Nat) (frames : List Frame) (eaten : Nat) (calls : List JSON) :
    ∃ k, eat_loop chefs (some limit) frames eaten calls
      = (eaten + k, calls ++ (acceptedDumplings chefs frames).take k) := by
  induction frames generalizing eaten calls with
  | nil => exact ⟨0, by simp [eat_loop, acceptedDumplings]⟩
  | cons frame rest ih =>
    cases hv : validate_dumpling frame with
    | error e =>
      obtain ⟨k, hk⟩ := ih eaten calls
      exact ⟨k, by simp [eat_loop, hv, acceptedDumplings,
        List.filterMap_cons, hk]⟩
    | ok dumpling =>
      obtain ⟨c, hc⟩ := validate_ok_chef_some frame dumpling hv
      cases hp : chefPasses chefs c with
      | false =>
        cases hl : limitReached (some limit) eaten with
        | true =>
          refine ⟨0, ?_⟩
          simp [eat_loop, hv, hc, hp, hl]
        | false =>
          obtain ⟨k, hk⟩ := ih eaten calls
          exact ⟨k, by simp [eat_loop, hv, hc, hp, hl, acceptedDumplings,
            List.filterMap_cons, hk]⟩
      | true =>
        cases hl : limitReached (some limit) (eaten + 1) with
        | true =>
          refine ⟨1, ?_⟩
          simp [eat_loop, hv, hc, hp, hl, acceptedDumplings,
            List.filterMap_cons]
        | false =>
          obtain ⟨k, hk⟩ := ih (eaten + 1) (calls ++ [dumpling])
          refine ⟨k + 1, ?_⟩
          simp [eat_loop, hv, hc, hp, hl, acceptedDumplings,
            List.filterMap_cons, hk]
          omega

/-- C9: the eater's `on_dumpling` callback fires, and the eaten counter
advances, exactly for validated frames whose `metadata.chef` passes the
filter (`chefs` is `None` or contains the chef name); with an eat limit
the calls are a prefix of those, so filtered-out dumplings never reach
`on_dumpling` and never count toward the limit. -/
theorem eater_filter_characterization (chefs : Option (List String))
    (frames : List Frame) (eaten : Nat) (calls : List JSON) (limit : Nat) :
    eat_loop chefs none frames eaten calls
      = (eaten + (acceptedDumplings chefs frames).length,
         calls ++ acceptedDumplings chefs frames) ∧
    (∃ k, eat_loop chefs (some limit) frames 0 []
      = (k, (acceptedDumplings chefs frames).take k)) := by
  refine ⟨eat_loop_no_limit chefs frames eaten calls, ?_⟩
  obtain ⟨k, hk⟩ := eat_loop_with_limit_taken chefs limit frames 0 []
  exact ⟨k, by simpa using hk⟩
